import Mathlib

/-!
Shallow embedding of the Ruohobot LiDAR / SLAM perception core
(`src/core/lidar.py` and `src/core/slam.py`).

Python floats are modelled as rationals (`ℚ`), byte values as `ℕ`
(masked explicitly where the code masks), byte strings as `List ℕ`.
The acquisition loop's interaction with the serial port and with time is
modelled by an explicit list of read events: each loop iteration of
`_read_ld19_scan` consumes one event (a header read together with the
following body read, or an I/O exception), and the read timeout is
modelled by the event list running out.
-/

set_option maxRecDepth 100000

namespace Ruohobot

/-- Single LiDAR measurement point (`LidarPoint` in `lidar.py`). -/
structure LidarPoint where
  angle : ℚ
  distance : ℚ
  intensity : ℕ
  valid : Bool
deriving DecidableEq

/-- Complete LiDAR scan (`LidarScan` in `lidar.py`); the wall-clock
`timestamp` and `scan_frequency` fields are omitted (pure model). -/
structure LidarScan where
  points : List LidarPoint
  total_points : ℕ
deriving DecidableEq

/-- Official CRC8 table from the LD-19 SDK, verbatim from
`LidarManager._read_ld19_scan.crc8` (`lidar.py` lines 206-229). -/
def crc8Table : List ℕ := [
  0x00, 0x4d, 0x9a, 0xd7, 0x79, 0x34, 0xe3, 0xae, 0xf2, 0xbf, 0x68, 0x25,
  0x8b, 0xc6, 0x11, 0x5c, 0xa9, 0xe4, 0x33, 0x7e, 0xd0, 0x9d, 0x4a, 0x07,
  0x5b, 0x16, 0xc1, 0x8c, 0x22, 0x6f, 0xb8, 0xf5, 0x1f, 0x52, 0x85, 0xc8,
  0x66, 0x2b, 0xfc, 0xb1, 0xed, 0xa0, 0x77, 0x3a, 0x94, 0xd9, 0x0e, 0x43,
  0xb6, 0xfb, 0x2c, 0x61, 0xcf, 0x82, 0x55, 0x18, 0x44, 0x09, 0xde, 0x93,
  0x3d, 0x70, 0xa7, 0xea, 0x3e, 0x73, 0xa4, 0xe9, 0x47, 0x0a, 0xdd, 0x90,
  0xcc, 0x81, 0x56, 0x1b, 0xb5, 0xf8, 0x2f, 0x62, 0x97, 0xda, 0x0d, 0x40,
  0xee, 0xa3, 0x74, 0x39, 0x65, 0x28, 0xff, 0xb2, 0x1c, 0x51, 0x86, 0xcb,
  0x21, 0x6c, 0xbb, 0xf6, 0x58, 0x15, 0xc2, 0x8f, 0xd3, 0x9e, 0x49, 0x04,
  0xaa, 0xe7, 0x30, 0x7d, 0x88, 0xc5, 0x12, 0x5f, 0xf1, 0xbc, 0x6b, 0x26,
  0x7a, 0x37, 0xe0, 0xad, 0x03, 0x4e, 0x99, 0xd4, 0x7c, 0x31, 0xe6, 0xab,
  0x05, 0x48, 0x9f, 0xd2, 0x8e, 0xc3, 0x14, 0x59, 0xf7, 0xba, 0x6d, 0x20,
  0xd5, 0x98, 0x4f, 0x02, 0xac, 0xe1, 0x36, 0x7b, 0x27, 0x6a, 0xbd, 0xf0,
  0x5e, 0x13, 0xc4, 0x89, 0x63, 0x2e, 0xf9, 0xb4, 0x1a, 0x57, 0x80, 0xcd,
  0x91, 0xdc, 0x0b, 0x46, 0xe8, 0xa5, 0x72, 0x3f, 0xca, 0x87, 0x50, 0x1d,
  0xb3, 0xfe, 0x29, 0x64, 0x38, 0x75, 0xa2, 0xef, 0x41, 0x0c, 0xdb, 0x96,
  0x42, 0x0f, 0xd8, 0x95, 0x3b, 0x76, 0xa1, 0xec, 0xb0, 0xfd, 0x2a, 0x67,
  0xc9, 0x84, 0x53, 0x1e, 0xeb, 0xa6, 0x71, 0x3c, 0x92, 0xdf, 0x08, 0x45,
  0x19, 0x54, 0x83, 0xce, 0x60, 0x2d, 0xfa, 0xb7, 0x5d, 0x10, 0xc7, 0x8a,
  0x24, 0x69, 0xbe, 0xf3, 0xaf, 0xe2, 0x35, 0x78, 0xd6, 0x9b, 0x4c, 0x01,
  0xf4, 0xb9, 0x6e, 0x23, 0x8d, 0xc0, 0x17, 0x5a, 0x06, 0x4b, 0x9c, 0xd1,
  0x7f, 0x32, 0xe5, 0xa8]

/-- One step of the table-driven CRC8: `crc = table[(crc ^ b) & 0xFF]`
(`lidar.py` line 232). -/
def crc8Step (crc b : ℕ) : ℕ := crc8Table.getD ((crc ^^^ b) &&& 255) 0

/-- Table-driven CRC8 with seed 0 over a byte sequence
(`crc8` in `lidar.py` lines 204-233). -/
def crc8 (data : List ℕ) : ℕ := data.foldl crc8Step 0

/-- Validity predicate applied to every decoded or simulated distance:
`valid = 0.05 < distance < 12.0` (`lidar.py` lines 183 and 284). -/
def isValidDistance (d : ℚ) : Bool := decide ((0.05 : ℚ) < d) && decide (d < (12.0 : ℚ))

/-- Python float modulus `x % 360.0`: the representative of `x` in
`[0, 360)`, computed as `x - 360 * floor (x / 360)`. -/
def qmod360 (x : ℚ) : ℚ := x - 360 * (⌊x / 360⌋ : ℚ)

/-- Angle interpolation for the 12 points of a packet (`lidar.py`
lines 270-275): the angular delta gets 360° added when negative,
the step is `delta / (12 - 1)`, and each angle is taken mod 360. -/
def interpAngles (startAngle endAngle : ℚ) : List ℚ :=
  let angleDiff0 := endAngle - startAngle
  let angleDiff := if angleDiff0 < 0 then angleDiff0 + 360 else angleDiff0
  let angleStep := angleDiff / (12 - 1)
  (List.range 12).map (fun (i : ℕ) => qmod360 (startAngle + (i : ℚ) * angleStep))

/-- Sweep-completion test (`lidar.py` lines 276-281): on the first packet
(`last_end_angle is None`) no completion; afterwards completion fires when
`start_angle < last_end_angle` and `last_end_angle - start_angle > 180`. -/
def detectWrap (lastEnd : Option ℚ) (startAngle : ℚ) : Bool :=
  match lastEnd with
  | none => false
  | some le' => decide (startAngle < le') && decide (le' - startAngle > 180)

/-- Per-packet sweep-completion flags over a list of
(start angle, end angle) pairs, threading `last_end_angle` exactly as the
packet loop does. -/
def wrapFlags : Option ℚ → List (ℚ × ℚ) → List Bool
  | _, [] => []
  | lastEnd, (s, e) :: rest => detectWrap lastEnd s :: wrapFlags (some e) rest

/-- Little-endian 16-bit read `int.from_bytes(l[off:off+2], 'little')`. -/
def bytesLE2 (l : List ℕ) (off : ℕ) : ℕ := l.getD off 0 + 256 * l.getD (off + 1) 0

/-- The 12 (distance in meters, intensity) pairs of a 47-byte packet
(`lidar.py` lines 262-267): point `i` sits at offset `6 + 3*i`, distance
is a little-endian 16-bit value in millimeters. -/
def packetPoints12 (packet : List ℕ) : List (ℚ × ℕ) :=
  (List.range 12).map (fun i =>
    let off := 6 + i * 3
    ((bytesLE2 packet off : ℚ) / 1000, packet.getD (off + 2) 0))

/-- Packet start angle in degrees: little-endian centidegrees at offset 4
divided by 100 (`lidar.py` line 261). -/
def packetStartAngle (packet : List ℕ) : ℚ := (bytesLE2 packet 4 : ℚ) / 100

/-- Packet end angle in degrees: little-endian centidegrees at offset 42
divided by 100 (`lidar.py` line 268). -/
def packetEndAngle (packet : List ℕ) : ℚ := (bytesLE2 packet 42 : ℚ) / 100

/-- The 12 `LidarPoint`s a CRC-valid packet contributes to the scan
buffer (`lidar.py` lines 283-290): interpolated angle, decoded distance
and intensity, and the open-interval validity flag. -/
def mkScanPoints (packet : List ℕ) : List LidarPoint :=
  let angles := interpAngles (packetStartAngle packet) (packetEndAngle packet)
  ((packetPoints12 packet).zip angles).map (fun q =>
    { angle := q.2, distance := q.1.1, intensity := q.1.2,
      valid := isValidDistance q.1.1 })

/-- Mutable state of the packet-accumulation loop inside
`_read_ld19_scan`: the growing point buffer, `last_end_angle`,
`scan_complete`, and `packets_collected`. -/
structure ScanState where
  scanPoints : List LidarPoint
  lastEndAngle : Option ℚ
  scanComplete : Bool
  packetsCollected : ℕ
deriving DecidableEq

/-- Initial state of the packet-accumulation loop. -/
def initScanState : ScanState :=
  { scanPoints := [], lastEndAngle := none, scanComplete := false, packetsCollected := 0 }

/-- One iteration of the packet loop on a successful pair of serial reads
(`hdr` from `read(2)`, `rest` from `read(45)`), `lidar.py` lines 244-294:
short header, wrong magic, short packet and CRC mismatch all leave the
state unchanged (`continue`); otherwise the packet is parsed, wraparound
is checked against `last_end_angle`, and the 12 points are appended. -/
def ld19Step (st : ScanState) (hdr rest : List ℕ) : ScanState :=
  if hdr.length < 2 then st
  else if ¬ (hdr.getD 0 0 = 0x54 ∧ hdr.getD 1 0 = 0x2C) then st
  else
    let packet := hdr ++ rest
    if packet.length ≠ 47 then st
    else if crc8 (packet.take 46) ≠ packet.getD 46 0 then st
    else
      { scanPoints := st.scanPoints ++ mkScanPoints packet
        lastEndAngle := some (packetEndAngle packet)
        scanComplete := st.scanComplete || detectWrap st.lastEndAngle (packetStartAngle packet)
        packetsCollected := st.packetsCollected + 1 }

/-- One serial interaction of the packet loop: either the two reads of an
iteration succeed (`read hdr rest`), or the serial layer raises
(`ioError`), which the handler at `lidar.py` lines 295-297 turns into a
`break`. -/
inductive IterEvent where
  | read (hdr rest : List ℕ)
  | ioError
deriving DecidableEq

/-- The packet-accumulation loop of `_read_ld19_scan` (`lidar.py`
lines 242-297): it runs while the sweep is incomplete and events remain
(the read timeout is modelled by the event list running out), and an I/O
error breaks out of the loop with the buffer as accumulated so far. -/
def ld19Loop : List IterEvent → ScanState → ScanState
  | [], st => st
  | ev :: rest, st =>
    if st.scanComplete then st
    else
      match ev with
      | IterEvent.ioError => st
      | IterEvent.read hdr body => ld19Loop rest (ld19Step st hdr body)

/-- Python 3 `round` to an integer: round half to even. -/
def pyRound (q : ℚ) : ℤ :=
  let f := ⌊q⌋
  let r := q - (f : ℚ)
  if r < 1/2 then f
  else if 1/2 < r then f + 1
  else if 2 ∣ f then f else f + 1

/-- The whole-degree bucket used for deduplication:
`int(round(p.angle))` (`lidar.py` line 304). -/
def angleBucket (p : LidarPoint) : ℤ := pyRound p.angle

/-- Deduplication loop of `_read_ld19_scan` (`lidar.py` lines 301-307):
walk the points in order, keeping the first occurrence of each rounded
whole-degree bucket (`seen` models the `seen_angles` set). -/
def dedupAnglesAux (seen : List ℤ) : List LidarPoint → List LidarPoint
  | [] => []
  | p :: rest =>
    if angleBucket p ∈ seen then dedupAnglesAux seen rest
    else p :: dedupAnglesAux (angleBucket p :: seen) rest

/-- Deduplicate a point list by whole-degree bucket, keeping first
occurrences (`lidar.py` lines 301-307). -/
def dedupAngles (pts : List LidarPoint) : List LidarPoint := dedupAnglesAux [] pts

/-- Boolean angle comparison used to sort points (`sorted(scan_points,
key=lambda p: p.angle)`, `lidar.py` line 299). -/
def angleLe (p q : LidarPoint) : Bool := decide (p.angle ≤ q.angle)

/-- Finalization of `_read_ld19_scan` (`lidar.py` lines 298-316): sort the
accumulated buffer by angle, deduplicate by rounded degree, and build the
`LidarScan` — unconditionally, whether or not the sweep completed. -/
def finishScan (st : ScanState) : LidarScan :=
  let sortedPts := st.scanPoints.mergeSort angleLe
  let uniq := dedupAngles sortedPts
  { points := uniq, total_points := uniq.length }

/-- The whole of `_read_ld19_scan` (`lidar.py` lines 198-316): `none`
only when the serial port is not open; otherwise run the packet loop over
the available events and publish the finalized buffer. -/
def readLd19Scan (serialOpen : Bool) (events : List IterEvent) : Option LidarScan :=
  if serialOpen then some (finishScan (ld19Loop events initScanState)) else none

/-- `_process_simulated_scan` (`lidar.py` lines 178-196): every entry of
`scan_data` (millimeters) becomes one point at integer angle = index,
distance in meters, intensity 0, with the same validity predicate; all
points are retained. -/
def processSimulatedScan (scanData : List ℚ) : LidarScan :=
  let points := (List.range scanData.length).map (fun a =>
    let distance := scanData.getD a 0 / 1000
    ({ angle := (a : ℚ), distance := distance, intensity := 0,
       valid := isValidDistance distance } : LidarPoint))
  { points := points, total_points := points.length }

/-- The synthetic scan data built each simulated iteration (`lidar.py`
lines 143-148): baseline 4000 mm, indices 170-190 at 1000 mm, index 90 at
2000 mm, index 270 at 1500 mm. -/
def simScanData : List ℚ :=
  (List.range 360).map (fun i =>
    if i = 90 then 2000 else if i = 270 then 1500
    else if 170 ≤ i ∧ i ≤ 190 then 1000 else 4000)

/-- Published state of the acquisition loop (`LidarManager` fields
`current_scan`, `scan_history` (deque of maxlen 100), `total_scans`,
`scan_errors`). -/
structure LoopState where
  currentScan : Option LidarScan
  scanHistory : List LidarScan
  totalScans : ℕ
  scanErrors : ℕ
deriving DecidableEq

/-- Initial `LidarManager` data state. -/
def initLoopState : LoopState :=
  { currentScan := none, scanHistory := [], totalScans := 0, scanErrors := 0 }

/-- Append to a deque of bounded length, evicting oldest first. -/
def pushBounded (n : ℕ) (h : List LidarScan) (x : LidarScan) : List LidarScan :=
  let h' := h ++ [x]
  if n < h'.length then h'.drop (h'.length - n) else h'

/-- One iteration of `_scan_loop` (`lidar.py` lines 140-175) as seen by
the published state: either the body runs to completion — in real mode it
calls `_read_ld19_scan` on the available serial events and publishes any
returned scan (current slot, history, counter, callback) — or an
exception escapes the body and the `except` handler increments
`scan_errors` and sleeps 0.1 s. -/
inductive LoopEvent where
  | iter (serialOpen : Bool) (events : List IterEvent)
  | raise
deriving DecidableEq

/-- Effect of one acquisition-loop iteration on the published state. -/
def scanLoopStep (st : LoopState) (ev : LoopEvent) : LoopState :=
  match ev with
  | LoopEvent.raise => { st with scanErrors := st.scanErrors + 1 }
  | LoopEvent.iter serialOpen events =>
    match readLd19Scan serialOpen events with
    | some scan =>
      { st with currentScan := some scan
                scanHistory := pushBounded 100 st.scanHistory scan
                totalScans := st.totalScans + 1 }
    | none => st

/-- The acquisition loop over a sequence of iteration outcomes: the
`while self.is_scanning` loop processes every iteration (no error ends
the thread; only clearing the flag does). -/
def scanLoopRun (st : LoopState) (evs : List LoopEvent) : LoopState :=
  evs.foldl scanLoopStep st

/-- Occupied-cell update of `SLAMSystem._update_ray` (`slam.py`
line 132): `value = min(1.0, value + 0.1)`. -/
def occUpdate (v : ℚ) : ℚ := min 1 (v + 0.1)

/-- Free-cell update of `SLAMSystem._update_ray` (`slam.py` line 135):
`value = max(0.0, value - 0.05)`. -/
def freeUpdate (v : ℚ) : ℚ := max 0 (v - 0.05)

/-- An arbitrary interleaving of ray updates applied to one cell:
`true` entries are occupied updates, `false` entries free updates. -/
def applyUpdates (us : List Bool) (v : ℚ) : ℚ :=
  us.foldl (fun acc u => if u then occUpdate acc else freeUpdate acc) v

/-- Body of the `while True` loop of `SLAMSystem._bresenham_line`
(`slam.py` lines 146-158), with fuel standing in for the unbounded loop;
each iteration appends the current cell, stops at the target, and
otherwise advances `x` and/or `y` by the Bresenham error rule. -/
def bresenhamAux (x1 y1 dx dy sx sy : ℤ) : ℕ → ℤ → ℤ → ℤ → List (ℤ × ℤ)
  | 0, _, _, _ => []
  | fuel + 1, x, y, err =>
    if x = x1 ∧ y = y1 then [(x, y)]
    else
      let e2 := 2 * err
      let err1 := if e2 > -dy then err - dy else err
      let x' := if e2 > -dy then x + sx else x
      let err2 := if e2 < dx then err1 + dx else err1
      let y' := if e2 < dx then y + sy else y
      (x, y) :: bresenhamAux x1 y1 dx dy sx sy fuel x' y' err2

/-- `SLAMSystem._bresenham_line` (`slam.py` lines 137-160): initial
`dx = |x1 -x0|`, `dy = |y1 - y0|`, steps `sx`, `sy`, error `dx - dy`; the
fuel `dx + dy + 1` is enough for the loop to reach its `break`, since each
iteration before the target moves `x` or `y` one step toward it. -/
def bresenhamLine (x0 y0 x1 y1 : ℤ) : List (ℤ × ℤ) :=
  let dx : ℤ := ((x1 - x0).natAbs : ℤ)
  let dy : ℤ := ((y1 - y0).natAbs : ℤ)
  let sx : ℤ := if x0 < x1 then 1 else -1
  let sy : ℤ := if y0 < y1 then 1 else -1
  bresenhamAux x1 y1 dx dy sx sy ((x1 - x0).natAbs + (y1 - y0).natAbs + 1) x0 y0 (dx - dy)

/-- Angular difference normalization of `get_obstacles_in_direction`
(`lidar.py` lines 352-355): `|angle - direction|`, folded to at most 180°
by replacing values above 180 with `360 - diff`. -/
def normAngleDiff (a d : ℚ) : ℚ :=
  let ad := |a - d|
  if ad > 180 then 360 - ad else ad

/-- Membership test of the query cone (`lidar.py` lines 348-358): the
point is valid and its normalized angular difference to the query
direction is at most half the cone angle. -/
def coneQualifies (direction halfCone : ℚ) (p : LidarPoint) : Bool :=
  p.valid && decide (normAngleDiff p.angle direction ≤ halfCone)

/-- `LidarManager.get_obstacles_in_direction` (`lidar.py` lines 340-360):
with no current scan, the empty list; otherwise the distances of the
qualifying points, in ascending order (`sorted(obstacles)`). -/
def getObstaclesInDirection (currentScan : Option LidarScan)
    (direction coneAngle : ℚ) : List ℚ :=
  match currentScan with
  | none => []
  | some scan =>
    let halfCone := coneAngle / 2
    let obstacles := (scan.points.filter (coneQualifies direction halfCone)).map
      (fun p => p.distance)
    obstacles.mergeSort (fun a b => decide (a ≤ b))

/-! ### Helper lemmas -/

lemma occUpdate_iterate (v : ℚ) (h1 : v ≤ 1) :
    ∀ n : ℕ, occUpdate^[n] v = min 1 (v + n * 0.1)
  | 0 => by simpa using (min_eq_right h1).symm
  | n + 1 => by
    rw [Function.iterate_succ_apply', occUpdate_iterate v h1 n, occUpdate]
    rcases le_total 1 (v + n * 0.1) with h | h
    · rw [min_eq_left h]
      have ha : (1 : ℚ) ≤ 1 + 0.1 := by norm_num
      have hb : (1 : ℚ) ≤ v + (n + 1 : ℕ) * 0.1 := by push_cast; linarith
      rw [min_eq_left ha, min_eq_left hb]
    · rw [min_eq_right h]
      congr 1
      push_cast
      ring

lemma freeUpdate_iterate (v : ℚ) (h0 : 0 ≤ v) :
    ∀ n : ℕ, freeUpdate^[n] v = max 0 (v - n * 0.05)
  | 0 => by simpa using (max_eq_right h0).symm
  | n + 1 => by
    rw [Function.iterate_succ_apply', freeUpdate_iterate v h0 n, freeUpdate]
    rcases le_total (v - n * 0.05) 0 with h | h
    · rw [max_eq_left h]
      have ha : (0 : ℚ) - 0.05 ≤ 0 := by norm_num
      have hb : v - (n + 1 : ℕ) * 0.05 ≤ 0 := by push_cast; linarith
      rw [max_eq_left ha, max_eq_left hb]
    · rw [max_eq_right h]
      congr 1
      push_cast
      ring

lemma occUpdate_mem_unit (v : ℚ) (h0 : 0 ≤ v) (h1 : v ≤ 1) :
    0 ≤ occUpdate v ∧ occUpdate v ≤ 1 := by
  unfold occUpdate
  constructor
  · exact le_min (by norm_num) (by linarith)
  · exact min_le_left _ _

lemma freeUpdate_mem_unit (v : ℚ) (h0 : 0 ≤ v) (h1 : v ≤ 1) :
    0 ≤ freeUpdate v ∧ freeUpdate v ≤ 1 := by
  unfold freeUpdate
  constructor
  · exact le_max_left _ _
  · exact max_le (by norm_num) (by linarith)

lemma applyUpdates_mem_unit :
    ∀ (us : List Bool) (v : ℚ), 0 ≤ v → v ≤ 1 →
      0 ≤ applyUpdates us v ∧ applyUpdates us v ≤ 1
  | [], v, h0, h1 => ⟨h0, h1⟩
  | u :: us, v, h0, h1 => by
    have step : 0 ≤ (if u then occUpdate v else freeUpdate v) ∧
        (if u then occUpdate v else freeUpdate v) ≤ 1 := by
      cases u
      · simpa using freeUpdate_mem_unit v h0 h1
      · simpa using occUpdate_mem_unit v h0 h1
    simpa [applyUpdates] using
      applyUpdates_mem_unit us (if u then occUpdate v else freeUpdate v) step.1 step.2

/-! ### Claim theorems -/

/-- C3: starting from any cell value in `[0,1]`, iterated occupied updates
stay in `[0,1]` and reach exactly 1 after at most 10 steps; iterated free
updates stay in `[0,1]` and reach exactly 0 after at most 20 steps; and any
interleaved sequence of ray updates keeps the cell value in `[0,1]`. -/
theorem grid_update_clamped (v : ℚ) (h0 : 0 ≤ v) (h1 : v ≤ 1) :
    (∀ n : ℕ, 0 ≤ occUpdate^[n] v ∧ occUpdate^[n] v ≤ 1) ∧
    (∀ n : ℕ, 10 ≤ n → occUpdate^[n] v = 1) ∧
    (∀ n : ℕ, 0 ≤ freeUpdate^[n] v ∧ freeUpdate^[n] v ≤ 1) ∧
    (∀ n : ℕ, 20 ≤ n → freeUpdate^[n] v = 0) ∧
    (∀ us : List Bool, 0 ≤ applyUpdates us v ∧ applyUpdates us v ≤ 1) := by
  refine ⟨?_, ?_, ?_, ?_, ?_⟩
  · intro n
    rw [occUpdate_iterate v h1 n]
    constructor
    · refine le_min (by norm_num) ?_
      have : (0 : ℚ) ≤ n * 0.1 := by positivity
      linarith
    · exact min_le_left _ _
  · intro n hn
    rw [occUpdate_iterate v h1 n]
    have : (1 : ℚ) ≤ v + n * 0.1 := by
      have : (10 : ℚ) ≤ (n : ℚ) := by exact_mod_cast hn
      nlinarith
    exact min_eq_left this
  · intro n
    rw [freeUpdate_iterate v h0 n]
    constructor
    · exact le_max_left _ _
    · refine max_le (by norm_num) ?_
      have : (0 : ℚ) ≤ n * 0.05 := by positivity
      linarith
  · intro n hn
    rw [freeUpdate_iterate v h0 n]
    have : v - n * 0.05 ≤ 0 := by
      have : (20 : ℚ) ≤ (n : ℚ) := by exact_mod_cast hn
      nlinarith
    exact max_eq_left this
  · intro us
    exact applyUpdates_mem_unit us v h0 h1

/-- Witness for C3 at the concrete cell value 1/2. -/
theorem grid_update_clamped_witness :
    (0 : ℚ) ≤ 1/2 ∧ (1/2 : ℚ) ≤ 1 ∧ occUpdate^[10] (1/2 : ℚ) = 1 ∧
      freeUpdate^[20] (1/2 : ℚ) = 0 := by
  have h := grid_update_clamped (1/2) (by norm_num) (by norm_num)
  exact ⟨by norm_num, by norm_num, h.2.1 10 le_rfl, h.2.2.2.1 20 le_rfl⟩

/-- C7: the Bresenham rasterization visits exactly the six cells
`(0,0)…(5,0)` in order for the horizontal case, and exactly the four
diagonal cells `(0,0),(1,1),(2,2),(3,3)` for the diagonal case. -/
theorem bresenham_concrete_paths :
    bresenhamLine 0 0 5 0 = [(0, 0), (1, 0), (2, 0), (3, 0), (4, 0), (5, 0)] ∧
    bresenhamLine 0 0 3 3 = [(0, 0), (1, 1), (2, 2), (3, 3)] := by
  constructor <;> decide

/-- C10: with no published scan, the obstacle query returns the empty
list for every direction and cone angle. -/
theorem obstacles_empty_without_scan (direction coneAngle : ℚ) :
    getObstaclesInDirection none direction coneAngle = [] := rfl

lemma qmod360_eq_self {x : ℚ} (h0 : 0 ≤ x) (h1 : x < 360) : qmod360 x = x := by
  unfold qmod360
  have : ⌊x / 360⌋ = 0 := by
    rw [Int.floor_eq_zero_iff]
    constructor
    · positivity
    · rw [div_lt_one (by norm_num : (0:ℚ) < 360)]
      exact h1
  rw [this]
  push_cast
  ring

lemma packetPoints12_length (packet : List ℕ) : (packetPoints12 packet).length = 12 := by
  unfold packetPoints12
  rw [List.length_map, List.length_range]

lemma interpAngles_length (s e : ℚ) : (interpAngles s e).length = 12 := by
  unfold interpAngles
  rw [List.length_map, List.length_range]

lemma mkScanPoints_length (packet : List ℕ) : (mkScanPoints packet).length = 12 := by
  unfold mkScanPoints
  rw [List.length_map, List.length_zip, packetPoints12_length, interpAngles_length]
  simp

/-- C5: the validity flag is exactly the open-interval test
`0.05 < distance < 12.0`; the boundary distances 0.05 and 12.0 are
invalid while 0.06 and 11.9 are valid; and both the simulated-scan
builder and the per-packet decoder retain every point — one point per
`scan_data` entry, twelve points per packet — marking each with the flag
instead of dropping invalid ones. -/
theorem validity_open_interval :
    (∀ d : ℚ, isValidDistance d = true ↔ ((0.05 : ℚ) < d ∧ d < 12.0)) ∧
    isValidDistance 0.05 = false ∧ isValidDistance 12.0 = false ∧
    isValidDistance 0.06 = true ∧ isValidDistance 11.9 = true ∧
    (∀ scanData : List ℚ,
      (processSimulatedScan scanData).points.length = scanData.length ∧
      ∀ p ∈ (processSimulatedScan scanData).points,
        p.valid = isValidDistance p.distance) ∧
    (∀ packet : List ℕ, (mkScanPoints packet).length = 12 ∧
      ∀ p ∈ mkScanPoints packet, p.valid = isValidDistance p.distance) := by
  refine ⟨?_, ?_, ?_, ?_, ?_, ?_, ?_⟩
  · intro d
    simp [isValidDistance]
  · simp [isValidDistance]
  · simp [isValidDistance]
  · rw [isValidDistance]
    simp only [Bool.and_eq_true, decide_eq_true_eq]
    norm_num
  · rw [isValidDistance]
    simp only [Bool.and_eq_true, decide_eq_true_eq]
    norm_num
  · intro scanData
    constructor
    · simp [processSimulatedScan]
    · intro p hp
      simp only [processSimulatedScan, List.mem_map] at hp
      obtain ⟨a, _, rfl⟩ := hp
      rfl
  · intro packet
    refine ⟨mkScanPoints_length packet, ?_⟩
    intro p hp
    simp only [mkScanPoints, List.mem_map] at hp
    obtain ⟨q, _, rfl⟩ := hp
    rfl

/-- C6: interpolation always yields 12 angles; each angle equals
`(start + i * delta / 11) mod 360` where `delta` is `end - start`
adjusted by +360 when `end < start`; in a no-wrap in-range sweep the mod
is the identity so the angles are exactly `start + i * (end - start) / 11`;
and for start 0°, end 33° the angles are 0°,3°,…,33° with step `33/11 = 3`. -/
theorem interp_angles_spec :
    (∀ s e : ℚ, (interpAngles s e).length = 12) ∧
    (∀ s e : ℚ, interpAngles s e = (List.range 12).map (fun (i : ℕ) =>
      qmod360 (s + (i : ℚ) * ((if e < s then e - s + 360 else e - s) / 11)))) ∧
    (∀ s e : ℚ, 0 ≤ s → s ≤ e → e < 360 →
      interpAngles s e = (List.range 12).map (fun (i : ℕ) =>
        s + (i : ℚ) * ((e - s) / 11))) ∧
    interpAngles 0 33 = [0, 3, 6, 9, 12, 15, 18, 21, 24, 27, 30, 33] := by
  have key : ∀ s e : ℚ, interpAngles s e = (List.range 12).map (fun (i : ℕ) =>
      qmod360 (s + (i : ℚ) * ((if e < s then e - s + 360 else e - s) / 11))) := by
    intro s e
    unfold interpAngles
    apply List.map_congr_left
    intro i _
    have h11 : ((12 : ℚ) - 1) = 11 := by norm_num
    rcases lt_or_le e s with h | h
    · rw [if_pos (sub_neg.mpr h), if_pos h, h11]
    · rw [if_neg (not_lt.mpr (sub_nonneg.mpr h)), if_neg (not_lt.mpr h), h11]
  have nowrap : ∀ s e : ℚ, 0 ≤ s → s ≤ e → e < 360 →
      interpAngles s e = (List.range 12).map (fun (i : ℕ) =>
        s + (i : ℚ) * ((e - s) / 11)) := by
    intro s e hs hse he
    rw [key s e]
    apply List.map_congr_left
    intro i hi
    rw [if_neg (not_lt.mpr hse)]
    have hi12 : (i : ℚ) ≤ 11 := by
      have h12 : i < 12 := List.mem_range.mp hi
      have : i ≤ 11 := Nat.le_of_lt_succ h12
      exact_mod_cast this
    have hstep : (0 : ℚ) ≤ (e - s) / 11 := by
      have : (0 : ℚ) ≤ e - s := by linarith
      positivity
    apply qmod360_eq_self
    · have : (0 : ℚ) ≤ (i : ℚ) * ((e - s) / 11) :=
        mul_nonneg (by positivity) hstep
      linarith
    · have hle : (i : ℚ) * ((e - s) / 11) ≤ 11 * ((e - s) / 11) :=
        mul_le_mul_of_nonneg_right hi12 hstep
      have h1111 : (11 : ℚ) * ((e - s) / 11) = e - s := by ring
      linarith
  refine ⟨fun s e => interpAngles_length s e, key, nowrap, ?_⟩
  rw [nowrap 0 33 (by norm_num) (by norm_num) (by norm_num)]
  simp [List.range_succ]
  norm_num

/-- Witness for C6 at the concrete no-wrap sweep 0° to 33°. -/
theorem interp_angles_spec_witness :
    interpAngles 0 33 = (List.range 12).map (fun (i : ℕ) => 0 + (i : ℚ) * ((33 - 0) / 11)) :=
  interp_angles_spec.2.2.1 0 33 (by norm_num) (by norm_num) (by norm_num)

/-- C2: for start angles 350°, 355°, 5°, 10° with each end angle between
its own start and the next start (the middle one ending just short of
360°), the wraparound test fires exactly once — at the 355°→5°
transition — never on the first packet; and in general it fires exactly
when the new start angle is below the previous end angle by more
than 180°. -/
theorem wraparound_fires_once (e1 e2 e3 e4 : ℚ)
    (h1a : 350 ≤ e1) (h1b : e1 < 355)
    (h2a : 355 ≤ e2) (h2b : e2 < 360)
    (h3a : 5 ≤ e3) (h3b : e3 < 10) :
    wrapFlags none [(350, e1), (355, e2), (5, e3), (10, e4)] =
      [false, false, true, false] ∧
    (∀ s : ℚ, detectWrap none s = false) ∧
    (∀ le' s : ℚ, detectWrap (some le') s = true ↔ le' - s > 180) := by
  have iff_char : ∀ le' s : ℚ, detectWrap (some le') s = true ↔ le' - s > 180 := by
    intro le' s
    simp only [detectWrap, Bool.and_eq_true, decide_eq_true_eq]
    constructor
    · exact fun h => h.2
    · intro h
      exact ⟨by linarith, h⟩
  refine ⟨?_, fun s => rfl, iff_char⟩
  simp only [wrapFlags]
  have f1 : detectWrap none 350 = false := rfl
  have f2 : detectWrap (some e1) 355 = false := by
    simp only [detectWrap, Bool.and_eq_false_iff, decide_eq_false_iff_not, not_lt]
    left
    linarith
  have f3 : detectWrap (some e2) 5 = true := (iff_char e2 5).mpr (by linarith)
  have f4 : detectWrap (some e3) 10 = false := by
    simp only [detectWrap, Bool.and_eq_false_iff, decide_eq_false_iff_not, not_lt]
    left
    linarith
  rw [f1, f2, f3, f4]

/-- Witness for C2 at the concrete end angles 354°, 359°, 9°, 14°. -/
theorem wraparound_fires_once_witness :
    wrapFlags none [((350 : ℚ), 354), (355, 359), (5, 9), (10, 14)] =
      [false, false, true, false] :=
  (wraparound_fires_once 354 359 9 14 (by norm_num) (by norm_num) (by norm_num)
    (by norm_num) (by norm_num) (by norm_num)).1

/-- C8: with a current scan, the obstacle query returns a list that is
sorted ascending, is a permutation of the distances of the points passing
the cone filter, and contains a distance exactly when some point of the
scan is valid, lies within half the cone angle of the direction after
normalization, and has that distance. -/
theorem obstacles_query_spec (scan : LidarScan) (direction coneAngle : ℚ) :
    List.Pairwise (fun a b : ℚ => a ≤ b)
      (getObstaclesInDirection (some scan) direction coneAngle) ∧
    (getObstaclesInDirection (some scan) direction coneAngle).Perm
      ((scan.points.filter (coneQualifies direction (coneAngle / 2))).map
        (fun p => p.distance)) ∧
    (∀ d : ℚ, d ∈ getObstaclesInDirection (some scan) direction coneAngle ↔
      ∃ p ∈ scan.points, p.valid = true ∧
        normAngleDiff p.angle direction ≤ coneAngle / 2 ∧ p.distance = d) := by
  have trans : ∀ a b c : ℚ, (fun a b : ℚ => decide (a ≤ b)) a b = true →
      (fun a b : ℚ => decide (a ≤ b)) b c = true →
      (fun a b : ℚ => decide (a ≤ b)) a c = true := by
    intro a b c hab hbc
    simp only [decide_eq_true_eq] at *
    exact le_trans hab hbc
  have total : ∀ a b : ℚ, ((fun a b : ℚ => decide (a ≤ b)) a b ||
      (fun a b : ℚ => decide (a ≤ b)) b a) = true := by
    intro a b
    simp only [Bool.or_eq_true, decide_eq_true_eq]
    exact le_total a b
  have hdef : getObstaclesInDirection (some scan) direction coneAngle =
      ((scan.points.filter (coneQualifies direction (coneAngle / 2))).map
        (fun p => p.distance)).mergeSort (fun a b : ℚ => decide (a ≤ b)) := rfl
  refine ⟨?_, ?_, ?_⟩
  · rw [hdef]
    have hp := List.sorted_mergeSort trans total
      ((scan.points.filter (coneQualifies direction (coneAngle / 2))).map
        (fun p => p.distance))
    exact hp.imp (fun h => of_decide_eq_true h)
  · rw [hdef]
    exact List.mergeSort_perm _ _
  · intro d
    rw [hdef, List.mem_mergeSort]
    simp only [List.mem_map, List.mem_filter, coneQualifies, Bool.and_eq_true,
      decide_eq_true_eq]
    constructor
    · rintro ⟨p, ⟨hmem, hvalid, hcone⟩, rfl⟩
      exact ⟨p, hmem, hvalid, hcone, rfl⟩
    · rintro ⟨p, hmem, hvalid, hcone, rfl⟩
      exact ⟨p, ⟨hmem, hvalid, hcone⟩, rfl⟩

lemma crc8Table_length : crc8Table.length = 256 := by rfl

lemma crc8Table_nodup : crc8Table.Nodup := by decide

lemma crc8Table_lt : ∀ x ∈ crc8Table, x < 256 := by decide

lemma and255_lt (x : ℕ) : x &&& 255 < 256 := by
  have h : (255 : ℕ) = 2 ^ 8 - 1 := by norm_num
  rw [h, Nat.and_pow_two_sub_one_eq_mod]
  exact Nat.mod_lt _ (by norm_num)

lemma and255_of_lt {x : ℕ} (h : x < 256) : x &&& 255 = x := by
  have h255 : (255 : ℕ) = 2 ^ 8 - 1 := by norm_num
  rw [h255, Nat.and_pow_two_sub_one_eq_mod]
  exact Nat.mod_eq_of_lt h

lemma crc8Step_lt (c b : ℕ) : crc8Step c b < 256 := by
  unfold crc8Step
  have hidx : (c ^^^ b) &&& 255 < crc8Table.length := by
    rw [crc8Table_length]
    exact and255_lt _
  rw [List.getD_eq_getElem?_getD, List.getElem?_eq_getElem hidx]
  exact crc8Table_lt _ (List.getElem_mem hidx)

lemma crc8Table_getD_inj {i j : ℕ} (hi : i < 256) (hj : j < 256) (hne : i ≠ j) :
    crc8Table.getD i 0 ≠ crc8Table.getD j 0 := by
  have hi' : i < crc8Table.length := by rw [crc8Table_length]; exact hi
  have hj' : j < crc8Table.length := by rw [crc8Table_length]; exact hj
  rw [List.getD_eq_getElem?_getD, List.getElem?_eq_getElem hi',
    List.getD_eq_getElem?_getD, List.getElem?_eq_getElem hj']
  simp only [Option.getD_some]
  intro h
  exact hne ((crc8Table_nodup.getElem_inj_iff).mp h)

lemma xor_mask_inj {c1 c2 b : ℕ} (h1 : c1 < 256) (h2 : c2 < 256)
    (h : (c1 ^^^ b) &&& 255 = (c2 ^^^ b) &&& 255) : c1 = c2 := by
  have e1 : (c1 ^^^ b) &&& 255 = c1 ^^^ (b &&& 255) := by
    rw [Nat.and_xor_distrib_right, and255_of_lt h1]
  have e2 : (c2 ^^^ b) &&& 255 = c2 ^^^ (b &&& 255) := by
    rw [Nat.and_xor_distrib_right, and255_of_lt h2]
  rw [e1, e2] at h
  have := congrArg (· ^^^ (b &&& 255)) h
  simpa [Nat.xor_cancel_right] using this

lemma flip_mask_ne {x k : ℕ} (hk : k < 8) : (x ^^^ 2 ^ k) &&& 255 ≠ x &&& 255 := by
  intro h
  have h2 : ((x ^^^ 2 ^ k) &&& 255).testBit k = (x &&& 255).testBit k := by rw [h]
  have h255 : (255 : ℕ) = 2 ^ 8 - 1 := by norm_num
  simp only [Nat.testBit_and, Nat.testBit_xor] at h2
  rw [h255, Nat.testBit_two_pow_sub_one] at h2
  simp [Nat.testBit_two_pow_self, hk] at h2

lemma crc8Step_inj {c1 c2 : ℕ} (b : ℕ) (h1 : c1 < 256) (h2 : c2 < 256) (hne : c1 ≠ c2) :
    crc8Step c1 b ≠ crc8Step c2 b := by
  unfold crc8Step
  apply crc8Table_getD_inj (and255_lt _) (and255_lt _)
  intro h
  exact hne (xor_mask_inj h1 h2 h)

lemma crc8_foldl_ne : ∀ (l : List ℕ) {c1 c2 : ℕ}, c1 < 256 → c2 < 256 → c1 ≠ c2 →
    l.foldl crc8Step c1 ≠ l.foldl crc8Step c2
  | [], _, _, _, _, hne => hne
  | b :: l, c1, c2, h1, h2, hne => by
    simp only [List.foldl_cons]
    exact crc8_foldl_ne l (crc8Step_lt _ _) (crc8Step_lt _ _) (crc8Step_inj b h1 h2 hne)

/-- C4: the CRC8 function is deterministic (equal byte sequences give
equal values), order-sensitive (swapping the bytes of `[1, 2]` changes
the value), and detects every single-bit error: flipping any one bit of
any byte of any sequence changes the CRC8 value. -/
theorem crc8_detects_single_bit_errors :
    (∀ d1 d2 : List ℕ, d1 = d2 → crc8 d1 = crc8 d2) ∧
    crc8 [1, 2] ≠ crc8 [2, 1] ∧
    (∀ (data : List ℕ) (i k : ℕ), i < data.length → k < 8 →
      crc8 (data.set i (data.getD i 0 ^^^ 2 ^ k)) ≠ crc8 data) := by
  refine ⟨fun d1 d2 h => by rw [h], by decide, ?_⟩
  intro data i k hi hk
  have hb : data.getD i 0 = data[i] := by
    rw [List.getD_eq_getElem?_getD, List.getElem?_eq_getElem hi]
    rfl
  have hset : data.set i (data.getD i 0 ^^^ 2 ^ k) =
      data.take i ++ (data[i] ^^^ 2 ^ k) :: data.drop (i + 1) := by
    rw [List.set_eq_take_append_cons_drop, if_pos hi, hb]
  have hdata : data = data.take i ++ data[i] :: data.drop (i + 1) := by
    conv_lhs => rw [← List.take_append_drop i data,
      ← List.getElem_cons_drop data i hi]
  unfold crc8
  rw [hset]
  conv_rhs => rw [hdata]
  rw [List.foldl_append, List.foldl_append, List.foldl_cons, List.foldl_cons]
  apply crc8_foldl_ne _ (crc8Step_lt _ _) (crc8Step_lt _ _)
  unfold crc8Step
  apply crc8Table_getD_inj (and255_lt _) (and255_lt _)
  rw [← Nat.xor_assoc]
  exact flip_mask_ne hk

/-- Witness for C4: flipping bit 3 of the first byte of the header pair
`[0x54, 0x2C]` changes the CRC8 value. -/
theorem crc8_detects_single_bit_errors_witness :
    crc8 ([0x54, 0x2C].set 0 (([0x54, 0x2C].getD 0 0) ^^^ 2 ^ 3)) ≠ crc8 [0x54, 0x2C] :=
  crc8_detects_single_bit_errors.2.2 [0x54, 0x2C] 0 3 (by decide) (by decide)

lemma dedupAnglesAux_sublist : ∀ (seen : List ℤ) (l : List LidarPoint),
    List.Sublist (dedupAnglesAux seen l) l
  | _, [] => List.Sublist.refl []
  | seen, p :: l => by
    unfold dedupAnglesAux
    split
    · exact (dedupAnglesAux_sublist seen l).cons p
    · exact (dedupAnglesAux_sublist (angleBucket p :: seen) l).cons₂ p

lemma dedupAnglesAux_bucket_nodup : ∀ (seen : List ℤ) (l : List LidarPoint),
    ((dedupAnglesAux seen l).map angleBucket).Nodup ∧
    ∀ p ∈ dedupAnglesAux seen l, angleBucket p ∉ seen
  | seen, [] => ⟨List.nodup_nil, by simp [dedupAnglesAux]⟩
  | seen, p :: l => by
    unfold dedupAnglesAux
    split
    next hmem =>
      obtain ⟨hnodup, hnot⟩ := dedupAnglesAux_bucket_nodup seen l
      exact ⟨hnodup, hnot⟩
    next hmem =>
      obtain ⟨hnodup, hnot⟩ := dedupAnglesAux_bucket_nodup (angleBucket p :: seen) l
      constructor
      · simp only [List.map_cons, List.nodup_cons]
        refine ⟨?_, hnodup⟩
        intro hc
        obtain ⟨q, hq, hqe⟩ := List.mem_map.mp hc
        have hq2 := hnot q hq
        rw [hqe] at hq2
        exact hq2 (List.mem_cons_self _ _)
      · intro q hq
        rcases List.mem_cons.mp hq with rfl | hq'
        · exact hmem
        · intro hqseen
          exact hnot q hq' (List.mem_cons_of_mem _ hqseen)

lemma dedupAnglesAux_ne_nil : ∀ (l : List LidarPoint), l ≠ [] →
    dedupAnglesAux [] l ≠ []
  | [], h => absurd rfl h
  | p :: l, _ => by
    unfold dedupAnglesAux
    simp

lemma angleLe_trans : ∀ a b c : LidarPoint, angleLe a b = true → angleLe b c = true →
    angleLe a c = true := by
  intro a b c hab hbc
  simp only [angleLe, decide_eq_true_eq] at *
  exact le_trans hab hbc

lemma angleLe_total : ∀ a b : LidarPoint, (angleLe a b || angleLe b a) = true := by
  intro a b
  simp only [angleLe, Bool.or_eq_true, decide_eq_true_eq]
  exact le_total a.angle b.angle

/-- C1 (amended): whenever the serial port is open, `_read_ld19_scan`
returns a scan at the end of every run — complete sweep or not — whose
points are the angle-sorted, whole-degree-deduplicated content of the
point buffer accumulated so far; so on timeout or read error the
partially accumulated buffer is published rather than withheld. -/
theorem read_scan_always_publishes (events : List IterEvent) :
    ∃ s : LidarScan, readLd19Scan true events = some s ∧
      List.Pairwise (fun p q : LidarPoint => p.angle ≤ q.angle) s.points ∧
      (∀ p ∈ s.points, p ∈ (ld19Loop events initScanState).scanPoints) ∧
      (s.points.map angleBucket).Nodup ∧
      s.total_points = s.points.length := by
  refine ⟨finishScan (ld19Loop events initScanState), rfl, ?_, ?_, ?_, rfl⟩
  · have hs := List.sorted_mergeSort angleLe_trans angleLe_total
      (ld19Loop events initScanState).scanPoints
    have hsub := dedupAnglesAux_sublist []
      ((ld19Loop events initScanState).scanPoints.mergeSort angleLe)
    exact (List.Pairwise.sublist hsub hs).imp (fun h => of_decide_eq_true h)
  · intro p hp
    have hsub := dedupAnglesAux_sublist []
      ((ld19Loop events initScanState).scanPoints.mergeSort angleLe)
    exact List.mem_mergeSort.mp (hsub.subset hp)
  · exact (dedupAnglesAux_bucket_nodup []
      ((ld19Loop events initScanState).scanPoints.mergeSort angleLe)).1

/-- Concrete header bytes of a well-formed LD-19 packet. -/
def ceHdr : List ℕ := [0x54, 0x2C]

/-- Concrete body of a well-formed LD-19 packet: speed 0, start angle 0°,
twelve points at 1000 mm with intensity 10, end angle 33°, device
timestamp 0, and the matching CRC8 byte 0x01. -/
def ceRest : List ℕ := [0x00, 0x00, 0x00, 0x00,
  0xE8, 0x03, 0x0A, 0xE8, 0x03, 0x0A, 0xE8, 0x03, 0x0A, 0xE8, 0x03, 0x0A,
  0xE8, 0x03, 0x0A, 0xE8, 0x03, 0x0A, 0xE8, 0x03, 0x0A, 0xE8, 0x03, 0x0A,
  0xE8, 0x03, 0x0A, 0xE8, 0x03, 0x0A, 0xE8, 0x03, 0x0A, 0xE8, 0x03, 0x0A,
  0xE4, 0x0C, 0x00, 0x00, 0x01]

/-- A serial run containing one valid packet and then nothing more: the
read timeout expires with no wraparound ever detected. -/
def ceEvents : List IterEvent := [IterEvent.read ceHdr ceRest]

/-- Counterexample to C1: after a run in which the sweep was never
completed (`scan_complete` still false), the acquisition loop nonetheless
publishes the partially accumulated buffer of 12 points as the current
scan — a partially accumulated point buffer is published. -/
theorem incomplete_scan_published :
    (ld19Loop ceEvents initScanState).scanComplete = false ∧
    (ld19Loop ceEvents initScanState).scanPoints.length = 12 ∧
    (scanLoopStep initLoopState (LoopEvent.iter true ceEvents)).currentScan =
      some (finishScan (ld19Loop ceEvents initScanState)) ∧
    (finishScan (ld19Loop ceEvents initScanState)).points ≠ [] := by
  have hlen : (ld19Loop ceEvents initScanState).scanPoints.length = 12 := by decide
  refine ⟨by decide, hlen, rfl, ?_⟩
  show dedupAnglesAux []
    ((ld19Loop ceEvents initScanState).scanPoints.mergeSort angleLe) ≠ []
  apply dedupAnglesAux_ne_nil
  intro hnil
  have hl := congrArg List.length hnil
  rw [List.length_mergeSort, hlen] at hl
  simp at hl

/-- C9 (amended): an exception escaping the scan-loop body increments the
error counter and changes nothing else, after which the loop goes on; a
serial read error inside the packet-reading loop does NOT increment the
error counter (the partial scan is still published); and the loop
processes every subsequent iteration — no error terminates it. -/
theorem scan_loop_error_accounting :
    (∀ st : LoopState, (scanLoopStep st LoopEvent.raise).scanErrors = st.scanErrors + 1 ∧
      (scanLoopStep st LoopEvent.raise).currentScan = st.currentScan ∧
      (scanLoopStep st LoopEvent.raise).totalScans = st.totalScans) ∧
    (∀ (st : LoopState) (serialOpen : Bool) (events : List IterEvent),
      (scanLoopStep st (LoopEvent.iter serialOpen events)).scanErrors = st.scanErrors) ∧
    (∀ (st : LoopState) (pre post : List LoopEvent),
      scanLoopRun st (pre ++ post) = scanLoopRun (scanLoopRun st pre) post) := by
  refine ⟨fun st => ⟨rfl, rfl, rfl⟩, ?_, ?_⟩
  · intro st serialOpen events
    cases h : readLd19Scan serialOpen events <;> simp [scanLoopStep, h]
  · intro st pre post
    simp [scanLoopRun]

/-- Counterexample to C9: a serial read error during packet accumulation
leaves the error counter untouched (it stays 0, not 1 as the claim
requires), while the loop still publishes a scan from the empty buffer. -/
theorem read_error_not_counted :
    (scanLoopStep initLoopState (LoopEvent.iter true [IterEvent.ioError])).scanErrors = 0 ∧
    (scanLoopStep initLoopState
      (LoopEvent.iter true [IterEvent.ioError])).scanErrors ≠
        initLoopState.scanErrors + 1 ∧
    (scanLoopStep initLoopState (LoopEvent.iter true [IterEvent.ioError])).currentScan ≠
      none := by
  refine ⟨rfl, by decide, ?_⟩
  intro h
  simp [scanLoopStep, readLd19Scan] at h

end Ruohobot
